import Mathlib

/-!
# Verification of the n8n-workflows indexing and search core

Shallow embedding of the repository's core (`build_vercel_data.py` and
`api/index.py`): the workflow analyzer (trigger classification, complexity
bucket, integration extraction), the index builder, the metadata search with
pagination, the deep content search, and the Mermaid diagram reconstructor.

Strings are modelled with Python's character-sequence semantics: the helpers
below operate on `List Char` (Python `str` indexes and slices by code point),
so that every definition evaluates inside the kernel on concrete inputs.
Python's `str.lower` is modelled by `Char.toLower` per character; the
difference (full Unicode case folding) is irrelevant to every claim, which
either quantifies over abstract strings or uses ASCII data.
-/

/-! ## Python-style string primitives -/

/-- Python `pat in hay` (substring containment) on character lists. -/
def charsContains (pat : List Char) : List Char → Bool
  | [] => pat.isEmpty
  | c :: t => pat.isPrefixOf (c :: t) || charsContains pat t

/-- Python `pat in hay` for strings. -/
def strContains (hay pat : String) : Bool := charsContains pat.data hay.data

/-- Python `s.lower()` (ASCII case folding suffices for all claims). -/
def strLower (s : String) : String := String.mk (s.data.map Char.toLower)

/-- Worker for `strReplace`; the fuel starts at the length of the subject
list and is consumed one unit per emitted character, so the `0` guard is
unreachable.  Written with fuel so that the definition is structural and
reduces inside the kernel. -/
def replaceGo (pat rep : List Char) : Nat → List Char → List Char
  | _, [] => []
  | 0, s => s
  | fuel + 1, c :: t =>
    if !pat.isEmpty && pat.isPrefixOf (c :: t) then
      rep ++ replaceGo pat rep fuel (t.drop (pat.length - 1))
    else
      c :: replaceGo pat rep fuel t

/-- Python `s.replace(pat, rep)`: replace every non-overlapping occurrence,
left to right.  (Python inserts `rep` between characters when `pat` is the
empty string; the source only ever replaces non-empty patterns, and this
model leaves `s` unchanged in that unexercised case.) -/
def strReplace (s pat rep : String) : String :=
  String.mk (replaceGo pat.data rep.data s.data.length s.data)

/-- Worker for `strSplitOn`, fueled like `replaceGo`. -/
def splitGo (sep : List Char) : Nat → List Char → List Char → List (List Char)
  | _, acc, [] => [acc.reverse]
  | 0, acc, s => [acc.reverse ++ s]
  | fuel + 1, acc, c :: t =>
    if !sep.isEmpty && sep.isPrefixOf (c :: t) then
      acc.reverse :: splitGo sep fuel [] (t.drop (sep.length - 1))
    else
      splitGo sep fuel (c :: acc) t

/-- Python `s.split(sep)` for a non-empty separator. -/
def strSplitOn (s sep : String) : List String :=
  (splitGo sep.data s.data.length [] s.data).map String.mk

/-- Python `s.strip()`. -/
def strStrip (s : String) : String :=
  String.mk (((s.data.dropWhile Char.isWhitespace).reverse.dropWhile
    Char.isWhitespace).reverse)

/-- Python `s.startswith(p)`. -/
def strStartsWith (s p : String) : Bool := p.data.isPrefixOf s.data

/-- Python `s[:n]` (slice of the first `n` characters). -/
def strTake (s : String) (n : Nat) : String := String.mk (s.data.take n)

/-- Python `len(s)` (number of characters). -/
def strLen (s : String) : Nat := s.data.length

/-- Python `s.isdigit()` restricted to ASCII digits: non-empty and all
digits. -/
def strIsDigit (s : String) : Bool := !s.data.isEmpty && s.data.all Char.isDigit

/-- Python `s.capitalize()`: first character upper-cased, the rest
lower-cased. -/
def pyCapitalize (s : String) : String :=
  match s.data with
  | [] => ""
  | c :: cs => String.mk (c.toUpper :: cs.map Char.toLower)

/-- Python `sep.join(l)`. -/
def strJoinSep (sep : String) : List String → String
  | [] => ""
  | [s] => s
  | s :: rest => s ++ sep ++ strJoinSep sep rest

/-- The single-quote character, written by code to keep the source free of
bare apostrophes. -/
def singleQuote : String := String.singleton (Char.ofNat 39)

/-! ## Python `dict` and `set` as insertion-ordered association/element
lists -/

/-- Python `d[k] = v`: update in place when the key is present (keeping its
position), append otherwise. -/
def dictSet {β : Type} : List (String × β) → String → β → List (String × β)
  | [], k, v => [(k, v)]
  | (k0, v0) :: rest, k, v =>
    if k0 == k then (k0, v) :: rest else (k0, v0) :: dictSet rest k v

/-- Python `d.get(k)`. -/
def dictGet {β : Type} (m : List (String × β)) (k : String) : Option β :=
  List.lookup k m

/-- Python `set.add`: the set is modelled as a duplicate-free list.
(CPython iterates a `set` in hash order; this model fixes insertion order.
Only the cardinality and the sorted form of the set reach the record, so no
claim depends on the iteration order.) -/
def setAdd (l : List String) (s : String) : List String :=
  if s ∈ l then l else l ++ [s]

/-- Python string `<=`: lexicographic by code point. -/
def charsLe : List Char → List Char → Bool
  | [], _ => true
  | _ :: _, [] => false
  | a :: as, b :: bs =>
    if a = b then charsLe as bs else decide (a.toNat < b.toNat)

/-- Python string `<=` on `String`. -/
def strLe (a b : String) : Bool := charsLe a.data b.data

/-- Ascending insertion into a sorted list, for `sorted(...)`. -/
def insertSorted (s : String) : List String → List String
  | [] => [s]
  | t :: ts => if strLe s t then s :: t :: ts else t :: insertSorted s ts

/-- Python `sorted(l)` for strings (lexicographic by code point). -/
def sortStrings (l : List String) : List String := l.foldr insertSorted []

/-! ## Data model

`RawNode`/`RawDoc` model a parsed workflow JSON object; `Option` fields
mirror the source's defensive `data.get(key, default)` reads. -/

structure RawNode where
  type : Option String
  name : Option String
  deriving Repr, DecidableEq

structure RawDoc where
  name : Option String
  id : Option String
  active : Option Bool
  tags : Option (List String)
  createdAt : Option String
  updatedAt : Option String
  nodes : Option (List RawNode)
  deriving Repr, DecidableEq

/-- The ways one source file can present itself to
`analyze_workflow_file` (which reads the file and calls `json.load`). -/
inductive FileContent where
  /-- bytes that are not valid UTF-8: `UnicodeDecodeError`, caught by the
  analyzer's `except` clause -/
  | undecodable
  /-- text that is not valid JSON: `json.JSONDecodeError`, caught by the
  analyzer's `except` clause -/
  | notJson
  /-- valid JSON whose top-level value is not an object (e.g. a list):
  `json.load` succeeds, and the subsequent `data.get(...)` raises
  `AttributeError`, which the `except` clause does NOT catch -/
  | nonObject
  /-- a valid JSON object, with the fields the analyzer reads (fields
  present with these types; documents are otherwise well-typed) -/
  | object (d : RawDoc)
  deriving Repr, DecidableEq

/-- Uncaught Python exceptions relevant to the modelled code paths. -/
inductive PyError where
  | attributeError
  deriving Repr, DecidableEq

/-- The normalized record the analyzer produces, as persisted in the index.
The `file_hash`/`file_size` fields (filesystem I/O) and the flattened
`content` blob are omitted: no claim references them, and the metadata
search does not read `content`. -/
structure WorkflowRecord where
  filename : String
  name : String
  workflow_id : String
  active : Bool
  description : String
  trigger_type : String
  complexity : String
  node_count : Nat
  integrations : List String
  tags : List String
  created_at : String
  updated_at : String
  deriving Repr, DecidableEq

/-! ## Workflow Analyzer (`build_vercel_data.py`) -/

/-- The `service_mappings` table of `analyze_workflow_file`, in source
order. -/
def service_mappings : List (String × String) := [
  ("openai", "OpenAI"),
  ("lmchatopenai", "OpenAI"),
  ("anthropic", "Anthropic"),
  ("agent", "Agent"),
  ("chat", "Chat"),
  ("memorybufferwindow", "Memory Buffer"),
  ("chainllm", "Chain LLM"),
  ("lmchatgooglegemini", "Google Gemini"),
  ("lmchatollama", "Ollama"),
  ("lmopenhuggingfaceinference", "Hugging Face"),
  ("embeddingsgooglegemini", "Google Embeddings"),
  ("toolhttprequest", "HTTP Tool"),
  ("toolwikipedia", "Wikipedia Tool"),
  ("executeworkflow", "Execute Workflow"),
  ("documentdefaultdataloader", "Document Loader"),
  ("outputparserstructured", "Output Parser"),
  ("telegram", "Telegram"),
  ("telegramTrigger", "Telegram"),
  ("discord", "Discord"),
  ("slack", "Slack"),
  ("whatsapp", "WhatsApp"),
  ("mattermost", "Mattermost"),
  ("gmail", "Gmail"),
  ("gmailtool", "Gmail"),
  ("emailreadimap", "Email (IMAP)"),
  ("emailsendsmt", "Email (SMTP)"),
  ("googledrive", "Google Drive"),
  ("googledocs", "Google Docs"),
  ("googlesheets", "Google Sheets"),
  ("googlecalendar", "Google Calendar"),
  ("googlecalendartool", "Google Calendar"),
  ("googletasks", "Google Tasks"),
  ("dropbox", "Dropbox"),
  ("postgres", "PostgreSQL"),
  ("mysql", "MySQL"),
  ("mongodb", "MongoDB"),
  ("airtable", "Airtable"),
  ("airtabletool", "Airtable"),
  ("notion", "Notion"),
  ("github", "GitHub"),
  ("gitlab", "GitLab"),
  ("asana", "Asana"),
  ("typeform", "Typeform"),
  ("form", "Form Trigger"),
  ("webhook", "Webhook"),
  ("httprequest", "HTTP Request"),
  ("converttofile", "Convert to File"),
  ("extractfromfile", "Extract from File"),
  ("stickynote", "Sticky Note"),
  ("cal", "Cal.com"),
  ("calendly", "Calendly"),
  ("cron", "Cron"),
  ("schedule", "Schedule"),
  ("hubspot", "HubSpot"),
  ("stripe", "Stripe"),
  ("paypal", "PayPal")]

/-- `node.get('type', '').lower()`. -/
def nodeTypeL (n : RawNode) : String := strLower (n.type.getD "")

/-- `node.get('name', '').lower()`. -/
def nodeNameL (n : RawNode) : String := strLower (n.name.getD "")

/-- Rule 1's condition (line 130): `'webhook' in node_type or 'webhook' in
node_name`. -/
def isWebhookMatch (n : RawNode) : Bool :=
  strContains (nodeTypeL n) "webhook" || strContains (nodeNameL n) "webhook"

/-- Rule 2's condition (line 132): `'cron' in node_type or 'schedule' in
node_type`. -/
def isSchedMatch (n : RawNode) : Bool :=
  strContains (nodeTypeL n) "cron" || strContains (nodeTypeL n) "schedule"

/-- The effective condition of the rule-3 fallback (lines 134-136): the
node's type contains `'trigger'` and not `'manual'`. -/
def isTriggerFallback (n : RawNode) : Bool :=
  strContains (nodeTypeL n) "trigger" && !strContains (nodeTypeL n) "manual"

/-- One iteration of the trigger-classification `if/elif` chain of
`analyze_workflow_file` (lines 130-136): `t` is the `trigger_type` variable
before this node is examined. -/
def triggerStep (t : String) (n : RawNode) : String :=
  if isWebhookMatch n then
    "Webhook"
  else if isSchedMatch n then
    "Scheduled"
  else if strContains (nodeTypeL n) "trigger" && t == "Manual" then
    (if !strContains (nodeTypeL n) "manual" then "Webhook" else t)
  else t

/-- The trigger type after the per-node scan (rules 1-4; before the
`Complex` override). -/
def classifyTrigger (nodes : List RawNode) : String :=
  nodes.foldl triggerStep "Manual"

/-- Integration extraction for one node (lines 139-157): type-based lookup
for the two known namespace prefixes, then the name scan, which wins when
it matches. -/
def serviceNameOf (n : RawNode) : Option String :=
  let node_type := nodeTypeL n
  let node_name := nodeNameL n
  let fromType : Option String :=
    if strStartsWith node_type "n8n-nodes-base." then
      dictGet service_mappings
        (strReplace (strLower (strReplace node_type "n8n-nodes-base." "")) "trigger" "")
    else if strStartsWith node_type "@n8n/" then
      let raw := if strContains node_type "." then
          ((strSplitOn node_type ".").getLastD "")
        else strLower node_type
      dictGet service_mappings (strReplace (strLower raw) "trigger" "")
    else none
  let fromName : Option String :=
    (service_mappings.find? (fun kv => strContains node_name kv.1 && kv.2 != "")).map
      (fun kv => kv.2)
  match fromName with
  | some v => some v
  | none => fromType

/-- The `integrations` set accumulated over all nodes (modelled as a
duplicate-free list; Python `if service_name:` skips `None` and the empty
string). -/
def integrationsOf (nodes : List RawNode) : List String :=
  nodes.foldl (fun acc n =>
    match serviceNameOf n with
    | some s => if s != "" then setAdd acc s else acc
    | none => acc) []

/-- `format_workflow_name`: filename to readable title. -/
def format_workflow_name (filename : String) : String :=
  let name := strReplace filename ".json" ""
  let parts := strSplitOn name "_"
  let parts := if parts.length > 1 && strIsDigit (parts.getD 0 "") then
      parts.drop 1
    else parts
  strJoinSep " " (parts.map pyCapitalize)

/-- Workflow display-name resolution (lines 177-182). -/
def workflowNameOf (filename : String) (d : RawDoc) : String :=
  let json_name := strStrip (d.name.getD "")
  if json_name != "" && json_name != strReplace filename ".json" ""
      && !strStartsWith json_name "My workflow" then
    json_name
  else
    format_workflow_name filename

/-- Description synthesis (lines 184-218).  `list(integrations)[:3]` reads
the set in iteration order, which this model fixes as insertion order (see
`setAdd`); no claim inspects the description. -/
def describeWorkflow (node_count : Nat) (integs : List String)
    (trigger_type : String) (workflow_name : String) : String :=
  let desc := "Workflow with " ++ Nat.repr node_count ++ " nodes"
  let desc :=
    if integs.isEmpty then desc
    else
      let main_services := integs.take 3
      let desc :=
        if main_services.length == 1 then
          desc ++ " using " ++ main_services.getD 0 ""
        else if main_services.length == 2 then
          desc ++ " connecting " ++ main_services.getD 0 "" ++ " and "
            ++ main_services.getD 1 ""
        else
          desc ++ " orchestrating "
            ++ strJoinSep ", " (main_services.dropLast) ++ ", and "
            ++ main_services.getLastD ""
      let desc :=
        if trigger_type == "Complex" then
          "Complex multi-step automation that "
            ++ strReplace (strReplace desc "Workflow with" "") " nodes" " nodes and"
        else if trigger_type == "Webhook" then
          "Webhook-triggered automation that "
            ++ strReplace (strReplace desc "Workflow with" "") " nodes" " nodes and"
        else if trigger_type == "Scheduled" then
          "Scheduled automation that "
            ++ strReplace (strReplace desc "Workflow with" "") " nodes" " nodes and"
        else desc
      let wn := strLower workflow_name
      if strContains wn "create" then desc ++ " to create new records"
      else if strContains wn "update" then desc ++ " to update existing data"
      else if strContains wn "sync" then desc ++ " to synchronize data"
      else if strContains wn "process" then desc ++ " for data processing"
      else if strContains wn "automation" then desc ++ " for automation tasks"
      else desc ++ " for data processing"
  let desc := desc ++ ". Uses " ++ Nat.repr node_count ++ " nodes"
  let desc :=
    if integs.length > 3 then
      desc ++ " and integrates with " ++ Nat.repr integs.length ++ " services"
    else desc
  desc ++ "."

/-- The pure body of `analyze_workflow_file` on a successfully parsed JSON
object. -/
def analyzeDoc (filename : String) (d : RawDoc) : WorkflowRecord :=
  let nodes := d.nodes.getD []
  let integs := integrationsOf nodes
  let node_count := nodes.length
  let trigger_type :=
    if node_count > 10 && integs.length > 3 then "Complex"
    else classifyTrigger nodes
  let complexity :=
    if node_count ≤ 5 then "low"
    else if node_count ≤ 15 then "medium"
    else "high"
  let workflow_name := workflowNameOf filename d
  { filename := filename
    name := workflow_name
    workflow_id := d.id.getD ""
    active := d.active.getD false
    description := describeWorkflow node_count integs trigger_type workflow_name
    trigger_type := trigger_type
    complexity := complexity
    node_count := node_count
    integrations := sortStrings integs
    tags := d.tags.getD []
    created_at := d.createdAt.getD ""
    updated_at := d.updatedAt.getD "" }

/-- `analyze_workflow_file`: `Except.error` models an uncaught Python
exception escaping the function; `.ok none` models the caught-and-skipped
`return None` path.  (The file is presented as its basename plus its
content; the directory walk and `os.path.basename` are abstracted.) -/
def analyze_workflow_file (filename : String) (content : FileContent) :
    Except PyError (Option WorkflowRecord) :=
  match content with
  | .undecodable => .ok none
  | .notJson => .ok none
  | .nonObject => .error .attributeError
  | .object d => .ok (some (analyzeDoc filename d))

/-! ## Index Builder (`build_vercel_data_dict`) -/

/-- The per-file loop of `build_vercel_data_dict` (lines 303-315): appends
each produced record in walk order, counts each skipped file, and lets any
uncaught exception escape. -/
def processFiles : List (String × FileContent) →
    Except PyError (List WorkflowRecord × Nat)
  | [] => .ok ([], 0)
  | f :: rest =>
    match analyze_workflow_file f.1 f.2 with
    | .error e => .error e
    | .ok none => (processFiles rest).map (fun p => (p.1, p.2 + 1))
    | .ok (some r) => (processFiles rest).map (fun p => (r :: p.1, p.2))

/-- The aggregate `stats` dictionary (lines 317-347). -/
structure Stats where
  total : Nat
  active : Nat
  inactive : Nat
  triggers : List (String × Nat)
  complexity : List (String × Nat)
  total_nodes : Nat
  unique_integrations : Nat
  last_indexed : String
  deriving Repr, DecidableEq

/-- Statistics computation over the produced records. -/
def computeStats (ws : List WorkflowRecord) : Stats :=
  let total := ws.length
  let active := (ws.filter (fun w => w.active)).length
  let total_nodes := (ws.map (fun w => w.node_count)).sum
  let triggers := ws.foldl (fun m w =>
    dictSet m w.trigger_type ((dictGet m w.trigger_type).getD 0 + 1)) []
  let complexity := ws.foldl (fun m w =>
    dictSet m w.complexity ((dictGet m w.complexity).getD 0 + 1)) []
  let all_integrations := ws.foldl (fun s w => w.integrations.foldl setAdd s) []
  { total := total
    active := active
    inactive := total - active
    triggers := triggers
    complexity := complexity
    total_nodes := total_nodes
    unique_integrations := all_integrations.length
    last_indexed := "2025-08-21" }

/-- The snapshot returned by `build_vercel_data_dict`.  `stats := none`
models the `{'stats': {}, 'workflows': []}` fallback for an absent or empty
corpus; the constant `generated_at`/`version` strings are omitted. -/
structure VercelData where
  stats : Option Stats
  workflows : List WorkflowRecord
  deriving Repr, DecidableEq

/-- `build_vercel_data_dict`: an absent workflows directory and an empty
file enumeration both take the early-return fallback; otherwise every file
is processed in walk order. -/
def build_vercel_data_dict (files : List (String × FileContent)) :
    Except PyError VercelData :=
  if files.isEmpty then .ok { stats := none, workflows := [] }
  else (processFiles files).map (fun p => { stats := some (computeStats p.1), workflows := p.1 })

/-! ## Query Engine: metadata search (`api/index.py`, `search_workflows`) -/

/-- The free-text predicate of `search_workflows` (lines 136-153), with
`sq` the lower-cased query. -/
def matchesQuery (sq : String) (w : WorkflowRecord) : Bool :=
  strContains (strLower w.name) sq ||
  strContains (strLower w.description) sq ||
  w.integrations.any (fun integration => strContains (strLower integration) sq) ||
  strContains (strLower (Nat.repr w.node_count)) sq ||
  strContains (strLower w.trigger_type) sq ||
  strContains (strLower w.complexity) sq ||
  w.tags.any (fun tag => strContains (strLower tag) sq) ||
  strContains (strLower w.filename) sq

/-- The filtering pipeline of `search_workflows` (lines 130-162): the four
predicates applied in source order.  A `trigger`/`complexity` filter is
skipped when it is the empty string (Python falsiness) or the sentinel
`"all"`. -/
def applyFilters (ws : List WorkflowRecord) (q trigger complexity : String)
    (active_only : Bool) : List WorkflowRecord :=
  let filtered := ws
  let filtered := if q != "" then filtered.filter (matchesQuery (strLower q)) else filtered
  let filtered := if trigger != "" && trigger != "all" then
      filtered.filter (fun w => strLower w.trigger_type == strLower trigger)
    else filtered
  let filtered := if complexity != "" && complexity != "all" then
      filtered.filter (fun w => strLower w.complexity == strLower complexity)
    else filtered
  if active_only then filtered.filter (fun w => w.active) else filtered

/-- The fields of the search response that constitute the spec's
`QueryResult` (the response additionally echoes the query and filters
verbatim; that echo is transport formatting, outside the query engine's
result). -/
structure SearchResult where
  workflows : List WorkflowRecord
  total : Nat
  pages : Nat
  page : Nat
  per_page : Nat
  deriving Repr, DecidableEq

/-- `search_workflows` (lines 114-190) on a loaded index.  `page` and
`per_page` are modelled as naturals: every claim constrains them to `≥ 1`
(Python would apply negative-slice semantics below that).  `none` models
the route's catch-all `except` answering with an error object — reached
when `per_page = 0` makes `pages = (total + per_page - 1) // per_page`
raise `ZeroDivisionError`. -/
def search_workflows (ws : List WorkflowRecord) (q : String)
    (page per_page : Nat) (trigger complexity : String) (active_only : Bool) :
    Option SearchResult :=
  let filtered := applyFilters ws q trigger complexity active_only
  let total := filtered.length
  let paginated := (filtered.drop ((page - 1) * per_page)).take per_page
  if per_page == 0 then none
  else some { workflows := paginated
              total := total
              pages := (total + per_page - 1) / per_page
              page := page
              per_page := per_page }

/-! ## Query Engine: deep content search (`deep_search_workflows`) -/

/-- A raw document as the deep search reads it.  `dump` abstracts
`json.dumps(workflow_data, default=str)` — the document's full serialized
text; the deep-search claims concern only scan control flow, never the
serialization itself. -/
structure DeepDoc where
  name : Option String
  metaDescription : Option String
  nodes : List RawNode
  dump : String
  deriving Repr, DecidableEq

/-- One entry of the deep-search result list (the constant
`match_type` field is omitted). -/
structure DeepResult where
  filename : String
  name : String
  description : String
  node_count : Nat
  integrations : List String
  deriving Repr, DecidableEq

/-- Result construction for one matching file (lines 214-225):
`workflow_data.get('meta', {}).get('description', '')`, and the
deduplicated node-type suffixes. -/
def mkDeepResult (filename : String) (d : DeepDoc) : DeepResult :=
  { filename := filename
    name := d.name.getD "Unknown"
    description := d.metaDescription.getD ""
    node_count := d.nodes.length
    integrations :=
      ((d.nodes.filter (fun n => n.type.getD "" != "")).map
        (fun n => (strSplitOn (n.type.getD "") ".").getLastD "")).foldl setAdd [] }

/-- The scan loop of `deep_search_workflows` (lines 204-232): a file is a
basename paired with its parse outcome (`none` when `json.load` raises and
the per-file `except` clause skips it).  A match is appended first, and
only then is `len(results) >= limit` checked. -/
def deepScan (sq : String) (limit : Nat) (results : List DeepResult) :
    List (String × Option DeepDoc) → List DeepResult
  | [] => results
  | (_, none) :: rest => deepScan sq limit results rest
  | (fn, some d) :: rest =>
    if strContains (strLower d.dump) sq then
      let results := results ++ [mkDeepResult fn d]
      if limit ≤ results.length then results else deepScan sq limit results rest
    else deepScan sq limit results rest

/-- The deep-search response fields the claims reference. -/
structure DeepResponse where
  results : List DeepResult
  total : Nat
  deriving Repr, DecidableEq

/-- `deep_search_workflows` (lines 192-242).  `limit` is modelled as a
natural; a non-positive Python `limit` behaves like `0` here (the
`len(results) >= limit` break fires right after the first append). -/
def deep_search_workflows (files : List (String × Option DeepDoc))
    (q : String) (limit : Nat) : Except String DeepResponse :=
  if q == "" then .error "Search query required"
  else
    let results := deepScan (strLower q) limit [] files
    .ok { results := results, total := results.length }

/-! ## Diagram Reconstructor (`get_workflow_diagram`) -/

/-- One innermost entry of the `connections` mapping:
`target_connection.get('node', 'unknown')`. -/
structure TargetConn where
  node : Option String
  deriving Repr, DecidableEq

/-- The `connections` mapping: source name → connection type → list of
connection groups, each a list of target entries (all in insertion
order). -/
def Connections : Type := List (String × List (String × List (List TargetConn)))

/-- Quote stripping (line 354): both double- and single-quote characters
removed. -/
def sanitizeName (s : String) : String :=
  strReplace (strReplace s "\"" "") singleQuote ""

/-- Truncation (lines 355-356): names longer than 30 characters become
their first 27 characters plus an ellipsis. -/
def truncateName (s : String) : String :=
  if strLen s > 30 then strTake s 27 ++ "..." else s

/-- The display name recorded for a node. -/
def cleanNodeName (n : RawNode) : String :=
  truncateName (sanitizeName (n.name.getD "Unknown"))

/-- The synthetic sequential identifier for the node at 0-based index
`i` (`node1`, `node2`, ...). -/
def mkNodeId (i : Nat) : String := "node" ++ Nat.repr (i + 1)

/-- The `node_map` dict (lines 349-359): display name → synthetic id, a
later node with the same display name overwriting the earlier entry. -/
def buildNodeMap (nodes : List RawNode) : List (String × String) :=
  nodes.enum.foldl (fun m p => dictSet m (cleanNodeName p.2) (mkNodeId p.1)) []

/-- The labelled Mermaid line for one node. -/
def nodeLine (i : Nat) (n : RawNode) : String :=
  "    " ++ mkNodeId i ++ "[\"" ++ cleanNodeName n ++ "\"]"

/-- One labelled line per node, in document order (line 360). -/
def nodeLines (nodes : List RawNode) : List String :=
  nodes.enum.map (fun p => nodeLine p.1 p.2)

/-- The exact-match pass (lines 373-379): one loop over `node_map` updating
both endpoints, the last matching entry winning. -/
def exactScan (m : List (String × String)) (src tgt : String) :
    Option String × Option String :=
  m.foldl (fun p kv =>
    (if kv.1 == src then some kv.2 else p.1,
     if kv.1 == tgt then some kv.2 else p.2)) (none, none)

/-- The substring fallback (lines 381-392): first entry, in iteration
order, whose name contains the endpoint name or is contained in it. -/
def partialScan (m : List (String × String)) (name : String) : Option String :=
  (m.find? (fun kv => strContains kv.1 name || strContains name kv.1)).map
    (fun kv => kv.2)

/-- Endpoint resolution for one `(source, target)` pair, exactly as the
source interleaves the two passes. -/
def resolveEdge (m : List (String × String)) (src tgt : String) :
    Option (String × String) :=
  let p := exactScan m src tgt
  let source_clean := match p.1 with
    | some v => some v
    | none => partialScan m src
  let target_clean := match p.2 with
    | some v => some v
    | none => partialScan m tgt
  match source_clean, target_clean with
  | some a, some b => some (a, b)
  | _, _ => none

/-- The Mermaid edge line for two resolved endpoints. -/
def edgeLine (a b : String) : String := "    " ++ a ++ " --> " ++ b

/-- `get_workflow_diagram`, success path (lines 337-397): header, one line
per node, then the edges appended in `connections` iteration order. -/
def get_workflow_diagram (nodes : List RawNode) (connections : Connections) :
    List String :=
  let node_map := buildNodeMap nodes
  let lines := ["graph TD"] ++ nodeLines nodes
  connections.foldl (fun acc sc =>
    sc.2.foldl (fun acc cl =>
      cl.2.foldl (fun acc conn =>
        conn.foldl (fun acc tc =>
          match resolveEdge node_map sc.1 (tc.node.getD "unknown") with
          | some ab => acc ++ [edgeLine ab.1 ab.2]
          | none => acc) acc) acc) acc) lines

/-- Modelled from the spec: endpoint resolution as §4.5 words it — "first
attempt an exact match against the truncated/sanitized display names
recorded for this document; if no exact match is found ... fall back to a
substring match (either name contains the other) against the same name
set, taking the first such match encountered in iteration order". -/
def spec_resolveEndpoint (m : List (String × String)) (name : String) :
    Option String :=
  match dictGet m name with
  | some v => some v
  | none => partialScan m name

/-- The flattened `(sourceName, targetName)` pairs of the `connections`
mapping, in iteration order. -/
def connPairs (connections : Connections) : List (String × String) :=
  connections.flatMap (fun sc =>
    sc.2.flatMap (fun cl =>
      cl.2.flatMap (fun conn =>
        conn.map (fun tc => (sc.1, tc.node.getD "unknown")))))

/-- Spec-side edge emission: a line if and only if both endpoints
resolve. -/
def spec_edgeLine (m : List (String × String)) (p : String × String) :
    Option String :=
  match spec_resolveEndpoint m p.1, spec_resolveEndpoint m p.2 with
  | some a, some b => some (edgeLine a b)
  | _, _ => none

/-! ## Claim-side characterizations and concrete example data -/

/-- The last node, in document order, matched by the webhook rule or the
cron/schedule rule. -/
def lastTriggerMatch (nodes : List RawNode) : Option RawNode :=
  nodes.reverse.find? (fun n => isWebhookMatch n || isSchedMatch n)

/-- Characterization of the classifier's outcome used by the amended C1:
last matching node wins; the rule-3 fallback applies only when no node
matches the webhook or cron/schedule rules. -/
def lastMatchTrigger (nodes : List RawNode) : String :=
  match lastTriggerMatch nodes with
  | some n => if isWebhookMatch n then "Webhook" else "Scheduled"
  | none => if nodes.any isTriggerFallback then "Webhook" else "Manual"

/-- A file's contribution to the record list when no file raises: the
analyzed record of each well-formed document. -/
def goodRecord (f : String × FileContent) : Option WorkflowRecord :=
  match f.2 with
  | .object d => some (analyzeDoc f.1 d)
  | _ => none

/-- The files the analyzer skips with `return None` (caught decode
failures). -/
def isSkippedFile (c : FileContent) : Bool :=
  match c with
  | .undecodable => true
  | .notJson => true
  | _ => false

/-- The deep-search outcome of a single file: `none` when the file is
unparseable or does not match, `some` result otherwise. -/
def deepMatchResult (sq : String) (f : String × Option DeepDoc) :
    Option DeepResult :=
  match f.2 with
  | none => none
  | some d => if strContains (strLower d.dump) sq then some (mkDeepResult f.1 d)
    else none

/-- The keys of an association list modelling a Python dict. -/
def keysOf (m : List (String × String)) : List String := m.map Prod.fst

/-- One component of `exactScan`: the scan of a single endpoint name
through the whole map, the last matching entry winning. -/
def scanOne (m : List (String × String)) (x : String) (init : Option String) :
    Option String :=
  m.foldl (fun st kv => if kv.1 == x then some kv.2 else st) init

/-- The 0-based index of the last node whose sanitized/truncated display
name equals `name`. -/
def lastCleanIdx (nodes : List RawNode) (name : String) : Option Nat :=
  (nodes.enum.reverse.find? (fun p => cleanNodeName p.2 == name)).map
    (fun p => p.1)

/-- A default raw node, for indexed access in claim statements. -/
def noNode : RawNode := { type := none, name := none }

/-- Concrete nodes used by counterexamples and witnesses. -/
def nWebhook : RawNode := { type := some "n8n-nodes-base.webhook", name := some "Webhook" }

def nCron : RawNode := { type := some "n8n-nodes-base.cron", name := some "Every day" }

def nManual : RawNode := { type := some "n8n-nodes-base.start", name := some "Start" }

def nTelegram : RawNode := { type := some "n8n-nodes-base.telegram", name := some "Send message" }

def nDiscord : RawNode := { type := some "n8n-nodes-base.discord", name := some "Post embed" }

def nSlack : RawNode := { type := some "n8n-nodes-base.slack", name := some "Notify team" }

def nGmail : RawNode := { type := some "n8n-nodes-base.gmail", name := some "Mail it" }

/-- A well-formed document with a single non-trigger node. -/
def docManual : RawDoc :=
  ⟨some "Tiny workflow", some "w1", some true, some ["demo"], some "", some "",
    some [nManual]⟩

/-- A document with a webhook node followed by a cron node. -/
def docWebhookThenCron : RawDoc :=
  ⟨some "Hooked then timed", some "w2", some false, some [], some "", some "",
    some [nWebhook, nCron]⟩

/-- Eleven nodes across four distinct integrations: triggers the `Complex`
override. -/
def docComplex : RawDoc :=
  ⟨some "Big workflow", some "w3", some false, some [], some "", some "",
    some [nTelegram, nDiscord, nSlack, nGmail, nManual, nManual, nManual,
      nManual, nManual, nManual, nManual]⟩

/-- Concrete corpora for the builder claims. -/
def fGood : String × FileContent := ("good.json", .object docManual)

def fBadJson : String × FileContent := ("broken.json", .notJson)

/-- A file holding valid JSON whose top-level value is a list. -/
def fArray : String × FileContent := ("array.json", .nonObject)

/-- Concrete records for the search claims (as loaded from an index). -/
def wrA : WorkflowRecord :=
  ⟨"a.json", "Alpha", "1", true, "Workflow with 1 nodes", "Manual", "low", 1,
    [], [], "", ""⟩

def wrB : WorkflowRecord :=
  ⟨"b.json", "Beta slack sync", "2", false, "Workflow with 3 nodes", "Webhook",
    "low", 3, ["Slack"], [], "", ""⟩

def wrC : WorkflowRecord :=
  ⟨"c.json", "Gamma", "3", true, "Workflow with 20 nodes", "Scheduled", "high",
    20, ["Gmail"], ["mail"], "", ""⟩

/-- A deep-search corpus entry whose serialized text contains "slack". -/
def deepDocSlack : DeepDoc :=
  ⟨some "Slack notifier", none, [nSlack], "nodes slack channel text"⟩

def deepFileSlack : String × Option DeepDoc := ("slack.json", some deepDocSlack)

/-- An unparseable deep-search corpus entry. -/
def deepFileBroken : String × Option DeepDoc := ("broken.json", none)

/-- A node whose display name exceeds 30 characters after sanitization. -/
def nLongName : RawNode :=
  { type := some "n8n-nodes-base.noOp",
    name := some "An exceedingly long workflow step label" }

/-- Two nodes sharing one display name, plus a connection naming it. -/
def nDupFirst : RawNode := { type := some "n8n-nodes-base.start", name := some "Step" }

def nDupSecond : RawNode := { type := some "n8n-nodes-base.noOp", name := some "Step" }

def connsDup : Connections :=
  [("Step", [("main", [[⟨some "Step"⟩]])])]

/-! ## Theorems

### C1 — trigger classification and node order -/

theorem classifyTrigger_concat (l : List RawNode) (n : RawNode) :
    classifyTrigger (l ++ [n]) = triggerStep (classifyTrigger l) n := by
  simp [classifyTrigger, List.foldl_append]

theorem lastTriggerMatch_concat (l : List RawNode) (n : RawNode) :
    lastTriggerMatch (l ++ [n]) =
      if isWebhookMatch n || isSchedMatch n then some n else lastTriggerMatch l := by
  simp only [lastTriggerMatch, List.reverse_append, List.reverse_singleton,
    List.singleton_append, List.find?_cons]
  cases h : (isWebhookMatch n || isSchedMatch n) <;> simp [h]

theorem classifyTrigger_eq_lastMatch (nodes : List RawNode) :
    classifyTrigger nodes = lastMatchTrigger nodes := by
  induction nodes using List.reverseRecOn with
  | nil => rfl
  | append_singleton l n ih =>
    rw [classifyTrigger_concat, ih]
    unfold lastMatchTrigger triggerStep
    rw [lastTriggerMatch_concat]
    by_cases hw : isWebhookMatch n = true
    · simp [hw]
    · rw [Bool.not_eq_true] at hw
      by_cases hs : isSchedMatch n = true
      · simp [hw, hs]
      · rw [Bool.not_eq_true] at hs
        simp only [hw, hs, Bool.or_self, Bool.false_eq_true, if_false,
          List.any_append, List.any_cons, List.any_nil, Bool.or_false]
        cases hlm : lastTriggerMatch l with
        | some m =>
          cases hwm : isWebhookMatch m <;> simp [hwm]
        | none =>
          cases hany : l.any isTriggerFallback with
          | true => simp
          | false =>
            simp only [Bool.false_or, if_true, if_false]
            by_cases ht : strContains (nodeTypeL n) "trigger" = true
            · by_cases hm : strContains (nodeTypeL n) "manual" = true
              · simp [isTriggerFallback, ht, hm]
              · rw [Bool.not_eq_true] at hm
                simp [isTriggerFallback, ht, hm]
            · rw [Bool.not_eq_true] at ht
              simp [isTriggerFallback, ht]

/-- C1, counterexample: a document containing a webhook-matching node is
classified `Scheduled` when a cron-typed node follows it, and the
classification of the same two nodes depends on their order.  This refutes
both the claimed order-independence and the claimed priority of Webhook
over Scheduled. -/
theorem C1_webhook_priority_counterexample :
    isWebhookMatch nWebhook = true
    ∧ classifyTrigger [nWebhook, nCron] = "Scheduled"
    ∧ classifyTrigger [nCron, nWebhook] = "Webhook"
    ∧ (analyzeDoc "a.json" docWebhookThenCron).trigger_type = "Scheduled" := by
  decide

/-- C1, amended: the pre-override trigger classification scans nodes in
order and the last matching node wins.  It is `Webhook` if the last node
matched by the webhook rule (type or name contains "webhook") or the
cron/schedule rule (type contains "cron" or "schedule") is a webhook
match — within one node the webhook rule is checked first — and
`Scheduled` if that last matching node is a cron/schedule match, even
when an earlier node contains "webhook".  When no node matches either
rule, it is `Webhook` if some node's type contains "trigger" but not
"manual", and `Manual` otherwise.  Classification therefore depends on
node order. -/
theorem C1_trigger_last_match_wins (nodes : List RawNode) :
    classifyTrigger nodes = lastMatchTrigger nodes :=
  classifyTrigger_eq_lastMatch nodes

/-! ### C4 and C5 — Complex override and complexity buckets -/

theorem classifyTrigger_ne_complex (nodes : List RawNode) :
    classifyTrigger nodes ≠ "Complex" := by
  rw [classifyTrigger_eq_lastMatch]
  unfold lastMatchTrigger
  cases lastTriggerMatch nodes with
  | some n => cases hw : isWebhookMatch n <;> simp [hw]
  | none => cases ha : nodes.any isTriggerFallback <;> simp [ha]

theorem insertSorted_length (s : String) (l : List String) :
    (insertSorted s l).length = l.length + 1 := by
  induction l with
  | nil => rfl
  | cons t ts ih => unfold insertSorted; split <;> simp [ih]

theorem sortStrings_length (l : List String) :
    (sortStrings l).length = l.length := by
  induction l with
  | nil => rfl
  | cons t ts ih => simp [sortStrings, insertSorted_length, ih] at ih ⊢

/-- C4: a record's trigger type is `Complex` exactly when its node count
exceeds 10 and its distinct-integration count exceeds 3; when that holds
the override replaces whatever rules 1-4 computed, and otherwise the
trigger type is rules 1-4's result (hence never `Complex`). -/
theorem C4_complex_override (filename : String) (d : RawDoc) :
    ((analyzeDoc filename d).trigger_type = "Complex" ↔
      (analyzeDoc filename d).node_count > 10
      ∧ (analyzeDoc filename d).integrations.length > 3)
    ∧ (analyzeDoc filename d).trigger_type =
        (if (analyzeDoc filename d).node_count > 10
            ∧ (analyzeDoc filename d).integrations.length > 3
         then "Complex" else classifyTrigger (d.nodes.getD [])) := by
  have hnc : (analyzeDoc filename d).node_count = (d.nodes.getD []).length := rfl
  have hil : (analyzeDoc filename d).integrations.length
      = (integrationsOf (d.nodes.getD [])).length := by
    show (sortStrings (integrationsOf (d.nodes.getD []))).length = _
    exact sortStrings_length _
  have htt : (analyzeDoc filename d).trigger_type =
      (if (d.nodes.getD []).length > 10
          ∧ (integrationsOf (d.nodes.getD [])).length > 3
       then "Complex" else classifyTrigger (d.nodes.getD [])) := by
    show (if ((d.nodes.getD []).length > 10 : Bool)
        && ((integrationsOf (d.nodes.getD [])).length > 3 : Bool)
      then "Complex" else classifyTrigger (d.nodes.getD [])) = _
    simp [Bool.and_eq_true, decide_eq_true_eq]
  rw [hnc, hil, htt]
  constructor
  · by_cases hc : (d.nodes.getD []).length > 10
        ∧ (integrationsOf (d.nodes.getD [])).length > 3
    · simp [hc]
    · simp [hc, classifyTrigger_ne_complex]
  · rfl

/-- C4, witness: the eleven-node, four-integration document is classified
`Complex`. -/
theorem C4_complex_override_witness :
    (analyzeDoc "big.json" docComplex).trigger_type = "Complex" :=
  (C4_complex_override "big.json" docComplex).1.mpr (by decide)

/-- C5: the complexity bucket is a pure function of the node count, with
`low ↔ node_count ≤ 5`, `medium ↔ 6 ≤ node_count ≤ 15`, and
`high ↔ node_count > 15`. -/
theorem C5_complexity_buckets (filename : String) (d : RawDoc) :
    ((analyzeDoc filename d).complexity = "low"
      ↔ (analyzeDoc filename d).node_count ≤ 5)
    ∧ ((analyzeDoc filename d).complexity = "medium"
      ↔ 6 ≤ (analyzeDoc filename d).node_count
        ∧ (analyzeDoc filename d).node_count ≤ 15)
    ∧ ((analyzeDoc filename d).complexity = "high"
      ↔ 15 < (analyzeDoc filename d).node_count) := by
  have hnc : (analyzeDoc filename d).node_count = (d.nodes.getD []).length := rfl
  have hcx : (analyzeDoc filename d).complexity =
      (if (d.nodes.getD []).length ≤ 5 then "low"
       else if (d.nodes.getD []).length ≤ 15 then "medium" else "high") := rfl
  rw [hnc, hcx]
  split_ifs with h1 h2 <;> simp <;> omega

/-- C5, witness: the single-node document lands in the `low` bucket. -/
theorem C5_complexity_buckets_witness :
    (analyzeDoc "good.json" docManual).complexity = "low" :=
  (C5_complexity_buckets "good.json" docManual).1.mpr (by decide)

/-! ### C2 — builder error handling -/

theorem processFiles_ok_of_no_nonObject :
    ∀ files : List (String × FileContent),
      (∀ f ∈ files, f.2 ≠ FileContent.nonObject) →
      processFiles files =
        .ok (files.filterMap goodRecord,
          (files.filter (fun f => isSkippedFile f.2)).length) := by
  intro files
  induction files with
  | nil => intro _; rfl
  | cons f rest ih =>
    intro h
    have hf : f.2 ≠ FileContent.nonObject := h f (by simp)
    have hrest := ih (fun g hg => h g (by simp [hg]))
    obtain ⟨fn, c⟩ := f
    cases c with
    | undecodable =>
      simp [processFiles, analyze_workflow_file, hrest, goodRecord, isSkippedFile,
        Except.map]
    | notJson =>
      simp [processFiles, analyze_workflow_file, hrest, goodRecord, isSkippedFile,
        Except.map]
    | nonObject => exact absurd rfl hf
    | object d =>
      simp [processFiles, analyze_workflow_file, hrest, goodRecord, isSkippedFile,
        Except.map]

/-- C2, counterexample: a corpus holding one well-formed document and one
malformed document whose text is valid JSON but not a JSON object.  The
builder does not skip the malformed file: the uncaught `AttributeError`
escapes, no snapshot is produced, and the well-formed document's record is
lost with it. -/
theorem C2_malformed_aborts_build_counterexample :
    build_vercel_data_dict [fGood, fArray] = .error .attributeError := by
  rfl

/-- C2, amended: only documents whose bytes fail Unicode decoding or whose
text fails JSON decoding are skipped with the error counter incremented;
over a corpus free of other failure modes (every file decodable to a JSON
object or failing decode), the build never raises, produces records for
exactly the well-formed documents in walk order, and counts exactly the
skipped files.  A document that decodes to a non-object JSON value instead
raises an uncaught `AttributeError` that aborts the whole batch. -/
theorem C2_skip_and_count_decode_failures (files : List (String × FileContent))
    (h : ∀ f ∈ files, f.2 ≠ FileContent.nonObject) :
    processFiles files =
      .ok (files.filterMap goodRecord,
        (files.filter (fun f => isSkippedFile f.2)).length)
    ∧ (files ≠ [] → build_vercel_data_dict files =
        .ok { stats := some (computeStats (files.filterMap goodRecord)),
              workflows := files.filterMap goodRecord }) := by
  have hmain := processFiles_ok_of_no_nonObject files h
  refine ⟨hmain, fun hne => ?_⟩
  have hempty : files.isEmpty = false := by
    cases files with
    | nil => exact absurd rfl hne
    | cons f rest => rfl
  simp [build_vercel_data_dict, hempty, hmain, Except.map]

/-- C2, witness: one good document and one JSON-decode failure — the build
succeeds, keeps the good record, and counts one error. -/
theorem C2_skip_and_count_witness :
    processFiles [fGood, fBadJson] =
      .ok ([fGood, fBadJson].filterMap goodRecord,
        ([fGood, fBadJson].filter (fun f => isSkippedFile f.2)).length) :=
  (C2_skip_and_count_decode_failures [fGood, fBadJson] (by decide)).1

/-! ### C3, C8, C9 — metadata search -/

theorem ceil_mul_ge (n pp : Nat) (hpp : 1 ≤ pp) : n ≤ pp * ((n + pp - 1) / pp) := by
  have hd := Nat.div_add_mod (n + pp - 1) pp
  have hm : (n + pp - 1) % pp < pp := Nat.mod_lt _ (by omega)
  omega

theorem ceil_mul_lt (n pp : Nat) (hpp : 1 ≤ pp) : pp * ((n + pp - 1) / pp) < n + pp := by
  have hd := Nat.div_add_mod (n + pp - 1) pp
  omega

theorem sum_page_lengths (l : List WorkflowRecord) (pp : Nat) (hpp : 1 ≤ pp) :
    ∑ i ∈ Finset.range ((l.length + pp - 1) / pp),
      ((l.drop (i * pp)).take pp).length = l.length := by
  have hmono : Monotone (fun i : ℕ => min (i * pp) l.length) := by
    intro a b hab
    exact min_le_min (Nat.mul_le_mul_right pp hab) (le_refl _)
  have hlen : ∀ i : ℕ, ((l.drop (i * pp)).take pp).length
      = min ((i + 1) * pp) l.length - min (i * pp) l.length := by
    intro i
    have h1 : (i + 1) * pp = i * pp + pp := by ring
    simp only [List.length_take, List.length_drop, h1]
    omega
  rw [Finset.sum_congr rfl (fun i _ => hlen i)]
  rw [Finset.sum_range_tsub hmono]
  have hge := ceil_mul_ge l.length pp hpp
  have h0 : ((l.length + pp - 1) / pp) * pp = pp * ((l.length + pp - 1) / pp) := by ring
  omega

/-- C3: for `page ≥ 1` and `per_page ≥ 1` the search succeeds (no error),
its items are the `(page-1)*per_page` slice of the filtered list clipped
to the available length (empty once the slice start passes the match
count), its total is the filtered match count computed before slicing,
its page count is the integer-arithmetic ceiling of `total / per_page`,
and the page slices for pages `1..pages` partition the filtered list. -/
theorem C3_pagination (ws : List WorkflowRecord) (q trigger complexity : String)
    (active_only : Bool) (page per_page : Nat)
    (_hpage : 1 ≤ page) (hpp : 1 ≤ per_page) :
    ∃ r, search_workflows ws q page per_page trigger complexity active_only = some r
      ∧ r.workflows = ((applyFilters ws q trigger complexity active_only).drop
          ((page - 1) * per_page)).take per_page
      ∧ r.total = (applyFilters ws q trigger complexity active_only).length
      ∧ (r.total ≤ (page - 1) * per_page → r.workflows = [])
      ∧ r.pages = r.total ⌈/⌉ per_page
      ∧ r.total ≤ r.pages * per_page
      ∧ r.pages * per_page < r.total + per_page
      ∧ ∑ i ∈ Finset.range r.pages,
          (((applyFilters ws q trigger complexity active_only).drop
            (i * per_page)).take per_page).length = r.total := by
  have hpp0 : (per_page == 0) = false := by
    simp only [beq_eq_false_iff_ne, ne_eq]
    omega
  refine ⟨⟨((applyFilters ws q trigger complexity active_only).drop
      ((page - 1) * per_page)).take per_page,
    (applyFilters ws q trigger complexity active_only).length,
    ((applyFilters ws q trigger complexity active_only).length
      + per_page - 1) / per_page,
    page, per_page⟩, ?_, rfl, rfl, ?_, rfl, ?_, ?_, ?_⟩
  · simp [search_workflows, hpp0]
  · intro h
    have hnil : (applyFilters ws q trigger complexity active_only).drop
        ((page - 1) * per_page) = [] := List.drop_eq_nil_of_le h
    simp [hnil]
  · have h := ceil_mul_ge (applyFilters ws q trigger complexity active_only).length
      per_page hpp
    dsimp only
    rw [Nat.mul_comm]
    exact h
  · have h := ceil_mul_lt (applyFilters ws q trigger complexity active_only).length
      per_page hpp
    dsimp only
    rw [Nat.mul_comm]
    exact h
  · dsimp only
    exact sum_page_lengths _ per_page hpp

/-- C3, witness: three records, two per page, page 2 holds the third. -/
theorem C3_pagination_witness :
    ∃ r, search_workflows [wrA, wrB, wrC] "" 2 2 "" "" false = some r
      ∧ r.workflows = ((applyFilters [wrA, wrB, wrC] "" "" "" false).drop
          ((2 - 1) * 2)).take 2
      ∧ r.total = (applyFilters [wrA, wrB, wrC] "" "" "" false).length
      ∧ (r.total ≤ (2 - 1) * 2 → r.workflows = [])
      ∧ r.pages = r.total ⌈/⌉ 2
      ∧ r.total ≤ r.pages * 2
      ∧ r.pages * 2 < r.total + 2
      ∧ ∑ i ∈ Finset.range r.pages,
          (((applyFilters [wrA, wrB, wrC] "" "" "" false).drop (i * 2)).take
            2).length = r.total :=
  C3_pagination [wrA, wrB, wrC] "" "" "" false 2 2 (by decide) (by decide)

/-- C8: the empty query with both field filters disabled and
`active_only = false` matches every record: the reported total is the
size of the loaded index. -/
theorem C8_empty_query_returns_all (ws : List WorkflowRecord)
    (page per_page : Nat) (hpp : 1 ≤ per_page) :
    ∃ r, search_workflows ws "" page per_page "" "" false = some r
      ∧ r.total = ws.length := by
  have hpp0 : (per_page == 0) = false := by
    simp only [beq_eq_false_iff_ne, ne_eq]
    omega
  refine ⟨⟨(ws.drop ((page - 1) * per_page)).take per_page, ws.length,
    (ws.length + per_page - 1) / per_page, page, per_page⟩, ?_, rfl⟩
  have hfil : applyFilters ws "" "" "" false = ws := rfl
  simp [search_workflows, hpp0, hfil]

/-- C8, witness: a three-record index reports `total = 3`. -/
theorem C8_empty_query_returns_all_witness :
    ∃ r, search_workflows [wrA, wrB, wrC] "" 1 20 "" "" false = some r
      ∧ r.total = [wrA, wrB, wrC].length :=
  C8_empty_query_returns_all [wrA, wrB, wrC] 1 20 (by decide)

/-- C9: the empty string disables the trigger filter and the complexity
filter exactly as the sentinel `"all"` does — the search results coincide
for every index and otherwise-equal query. -/
theorem C9_empty_filter_equals_all (ws : List WorkflowRecord) (q : String)
    (page per_page : Nat) (trigger complexity : String) (active_only : Bool) :
    search_workflows ws q page per_page "" complexity active_only
      = search_workflows ws q page per_page "all" complexity active_only
    ∧ search_workflows ws q page per_page trigger "" active_only
      = search_workflows ws q page per_page trigger "all" active_only := by
  constructor <;> rfl

/-! ### C6 — deep content search -/

theorem deepScan_take (sq : String) (limit : Nat) :
    ∀ (files : List (String × Option DeepDoc)) (acc : List DeepResult),
      acc.length < limit →
      deepScan sq limit acc files
        = acc ++ (files.filterMap (deepMatchResult sq)).take (limit - acc.length) := by
  intro files
  induction files with
  | nil => intro acc _; simp [deepScan]
  | cons f rest ih =>
    intro acc hacc
    obtain ⟨fn, od⟩ := f
    cases od with
    | none =>
      simp only [deepScan, List.filterMap_cons, deepMatchResult]
      exact ih acc hacc
    | some d =>
      by_cases hm : strContains (strLower d.dump) sq = true
      · simp only [deepScan, hm, if_true, List.filterMap_cons, deepMatchResult]
        by_cases hstop : limit ≤ (acc ++ [mkDeepResult fn d]).length
        · rw [if_pos hstop]
          have hl1 : limit - acc.length = 1 := by
            simp only [List.length_append, List.length_singleton] at hstop
            omega
          simp [hl1]
        · rw [if_neg hstop]
          have hlt : (acc ++ [mkDeepResult fn d]).length < limit := by omega
          rw [ih _ hlt]
          have hsplit : limit - acc.length = (limit - (acc.length + 1)) + 1 := by
            simp only [List.length_append, List.length_singleton] at hstop
            omega
          rw [hsplit]
          simp [List.take_succ_cons, List.length_append]
      · rw [Bool.not_eq_true] at hm
        simp only [deepScan, hm, Bool.false_eq_true, if_false, List.filterMap_cons,
          deepMatchResult]
        exact ih acc hacc

/-- C6, counterexample: with `limit = 0` the check `len(results) >= limit`
fires only after the first match has been appended, so one result is
returned — more than `limit` — and the scan did not stop before collecting
it. -/
theorem C6_limit_zero_counterexample :
    deep_search_workflows [deepFileSlack] "slack" 0
      = .ok { results := [mkDeepResult "slack.json" deepDocSlack], total := 1 } := by
  rfl

/-- C6, amended: an empty query is rejected before any file is read (the
outcome does not depend on the corpus at all); for `limit ≥ 1` the scan
returns exactly the first `limit` matches in corpus order — so it stops as
soon as `limit` matches are collected, at most `limit` results are
returned, and a file that fails to parse is skipped without aborting the
scan and without counting toward the limit.  For `limit = 0` (and, in
Python, any non-positive limit) the scan instead stops right after the
first match and returns that one result. -/
theorem C6_deep_search_control_flow (files : List (String × Option DeepDoc))
    (q : String) (limit : Nat) :
    (q = "" → deep_search_workflows files q limit = .error "Search query required")
    ∧ (q ≠ "" → 1 ≤ limit →
        deep_search_workflows files q limit =
          .ok { results := (files.filterMap (deepMatchResult (strLower q))).take limit,
                total := ((files.filterMap
                  (deepMatchResult (strLower q))).take limit).length }) := by
  constructor
  · intro hq
    subst hq
    rfl
  · intro hq hl
    have hqb : (q == "") = false := by
      simp only [beq_eq_false_iff_ne, ne_eq]
      exact hq
    have hscan := deepScan_take (strLower q) limit files [] (by simpa using hl)
    simp only [List.nil_append, Nat.sub_zero] at hscan
    simp [deep_search_workflows, hqb, hscan]

/-- C6, witness: a broken file plus a matching file under `limit = 5`:
the broken file is skipped, the match is returned. -/
theorem C6_deep_search_witness :
    deep_search_workflows [deepFileBroken, deepFileSlack] "slack" 5
      = .ok ⟨([deepFileBroken, deepFileSlack].filterMap
            (deepMatchResult (strLower "slack"))).take 5,
          (([deepFileBroken, deepFileSlack].filterMap
            (deepMatchResult (strLower "slack"))).take 5).length⟩ :=
  (C6_deep_search_control_flow [deepFileBroken, deepFileSlack] "slack" 5).2
    (by decide) (by decide)

/-! ### C7 — diagram reconstruction -/

theorem foldl_append_of_body {α β : Type} (f : List β → α → List β)
    (h : α → List β) (hf : ∀ acc x, f acc x = acc ++ h x) :
    ∀ (l : List α) (acc : List β), l.foldl f acc = acc ++ l.flatMap h := by
  intro l
  induction l with
  | nil => intro acc; simp
  | cons x xs ih =>
    intro acc
    simp only [List.foldl_cons, List.flatMap_cons, hf, ih, List.append_assoc]

theorem flatMap_toList_eq_filterMap {α β : Type} (g : α → Option β)
    (l : List α) : (l.flatMap (fun x => (g x).toList)) = l.filterMap g := by
  induction l with
  | nil => rfl
  | cons x xs ih => cases hg : g x <;> simp [hg, ih]

theorem filterMap_flatMap_list {α β γ : Type} (l : List α) (f : α → List β)
    (g : β → Option γ) :
    (l.flatMap f).filterMap g = l.flatMap (fun x => (f x).filterMap g) := by
  induction l with
  | nil => rfl
  | cons x xs ih => simp [List.filterMap_append, ih]

theorem dictSet_keysOf (m : List (String × String)) (k v : String) :
    keysOf (dictSet m k v)
      = (if k ∈ keysOf m then keysOf m else keysOf m ++ [k]) := by
  induction m with
  | nil => simp [dictSet, keysOf]
  | cons e rest ih =>
    obtain ⟨k0, v0⟩ := e
    by_cases hk : k0 = k
    · subst hk
      simp [dictSet, keysOf]
    · have hb : (k0 == k) = false := by simp [hk]
      simp only [dictSet, hb, Bool.false_eq_true, if_false, keysOf,
        List.map_cons] at ih ⊢
      rw [ih]
      by_cases hmem : k ∈ List.map Prod.fst rest
      · simp [hmem, Ne.symm hk]
      · simp [hmem, Ne.symm hk]

theorem dictSet_keysOf_nodup (m : List (String × String)) (k v : String)
    (h : (keysOf m).Nodup) : (keysOf (dictSet m k v)).Nodup := by
  rw [dictSet_keysOf]
  split
  · exact h
  · rename_i hmem
    simp [List.nodup_append, h, hmem]

theorem dictGet_dictSet_self (m : List (String × String)) (k v : String) :
    dictGet (dictSet m k v) k = some v := by
  induction m with
  | nil => simp [dictSet, dictGet, List.lookup]
  | cons e rest ih =>
    obtain ⟨k0, v0⟩ := e
    by_cases hk : k0 = k
    · subst hk
      simp [dictSet, dictGet, List.lookup]
    · have hb : (k0 == k) = false := by simp [hk]
      have hb2 : (k == k0) = false := by simp [Ne.symm hk]
      simp only [dictSet, hb, Bool.false_eq_true, if_false]
      simp only [dictGet, List.lookup, hb2] at ih ⊢
      exact ih

theorem dictGet_dictSet_ne (m : List (String × String)) (k v x : String)
    (h : x ≠ k) : dictGet (dictSet m k v) x = dictGet m x := by
  induction m with
  | nil =>
    have hb : (x == k) = false := by simp [h]
    simp [dictSet, dictGet, List.lookup, hb]
  | cons e rest ih =>
    obtain ⟨k0, v0⟩ := e
    by_cases hk : k0 = k
    · subst hk
      have hb : (x == k0) = false := by simp [h]
      simp [dictSet, dictGet, List.lookup, hb]
    · have hb : (k0 == k) = false := by simp [hk]
      simp only [dictSet, hb, Bool.false_eq_true, if_false]
      by_cases hx : x = k0
      · subst hx
        simp [dictGet, List.lookup]
      · have hb2 : (x == k0) = false := by simp [hx]
        simp only [dictGet, List.lookup, hb2] at ih ⊢
        exact ih

theorem scanOne_no_key (m : List (String × String)) (x : String)
    (init : Option String) (h : x ∉ keysOf m) : scanOne m x init = init := by
  induction m generalizing init with
  | nil => rfl
  | cons e rest ih =>
    obtain ⟨k0, v0⟩ := e
    simp only [keysOf, List.map_cons, List.mem_cons, not_or] at h
    have hb : (k0 == x) = false := by simp [Ne.symm h.1]
    simp only [scanOne, List.foldl_cons, hb, Bool.false_eq_true, if_false]
    exact ih init h.2

theorem scanOne_eq_dictGet (m : List (String × String)) (x : String)
    (h : (keysOf m).Nodup) : scanOne m x none = dictGet m x := by
  induction m with
  | nil => rfl
  | cons e rest ih =>
    obtain ⟨k0, v0⟩ := e
    simp only [keysOf, List.map_cons, List.nodup_cons] at h
    by_cases hk : k0 = x
    · subst hk
      simp only [scanOne, List.foldl_cons, beq_self_eq_true, if_true]
      have : scanOne rest k0 (some v0) = some v0 :=
        scanOne_no_key rest k0 (some v0) h.1
      simp only [scanOne] at this
      rw [this]
      simp [dictGet, List.lookup]
    · have hb : (k0 == x) = false := by simp [hk]
      have hb2 : (x == k0) = false := by simp [Ne.symm hk]
      simp only [scanOne, List.foldl_cons, hb, Bool.false_eq_true, if_false]
      simp only [dictGet, List.lookup, hb2]
      exact ih h.2

theorem exactScan_eq_pair (m : List (String × String)) (s t : String) :
    ∀ (a b : Option String),
      m.foldl (fun p kv =>
        (if kv.1 == s then some kv.2 else p.1,
         if kv.1 == t then some kv.2 else p.2)) (a, b)
      = (scanOne m s a, scanOne m t b) := by
  induction m with
  | nil => intro a b; rfl
  | cons e rest ih =>
    intro a b
    simp only [List.foldl_cons, scanOne]
    exact ih _ _

theorem exactScan_eq_dictGet (m : List (String × String)) (s t : String)
    (h : (keysOf m).Nodup) : exactScan m s t = (dictGet m s, dictGet m t) := by
  unfold exactScan
  rw [exactScan_eq_pair m s t none none, scanOne_eq_dictGet m s h,
    scanOne_eq_dictGet m t h]

theorem resolveEdge_spec_of_nodup (m : List (String × String)) (s t : String)
    (h : (keysOf m).Nodup) :
    (resolveEdge m s t).map (fun ab => edgeLine ab.1 ab.2)
      = spec_edgeLine m (s, t) := by
  unfold resolveEdge spec_edgeLine spec_resolveEndpoint
  rw [exactScan_eq_dictGet m s t h]
  cases dictGet m s with
  | some a =>
    cases dictGet m t with
    | some b => rfl
    | none => cases partialScan m t <;> rfl
  | none =>
    cases partialScan m s with
    | some a =>
      cases dictGet m t with
      | some b => rfl
      | none => cases partialScan m t <;> rfl
    | none =>
      cases dictGet m t with
      | some b => rfl
      | none => cases partialScan m t <;> rfl

theorem buildNodeMap_keys_nodup (nodes : List RawNode) :
    (keysOf (buildNodeMap nodes)).Nodup := by
  suffices h : ∀ (l : List (Nat × RawNode)) (m : List (String × String)),
      (keysOf m).Nodup →
      (keysOf (l.foldl (fun m p =>
        dictSet m (cleanNodeName p.2) (mkNodeId p.1)) m)).Nodup by
    exact h nodes.enum [] (by simp [keysOf])
  intro l
  induction l with
  | nil => intro m hm; exact hm
  | cons p rest ih =>
    intro m hm
    exact ih _ (dictSet_keysOf_nodup m _ _ hm)

theorem get_workflow_diagram_eq (nodes : List RawNode) (conns : Connections) :
    get_workflow_diagram nodes conns
      = "graph TD" :: (nodeLines nodes
        ++ (connPairs conns).filterMap
            (fun p => (resolveEdge (buildNodeMap nodes) p.1 p.2).map
              (fun ab => edgeLine ab.1 ab.2))) := by
  have h_tc : ∀ (src : String) (acc : List String) (tc : TargetConn),
      (match resolveEdge (buildNodeMap nodes) src (tc.node.getD "unknown") with
        | some ab => acc ++ [edgeLine ab.1 ab.2]
        | none => acc)
      = acc ++ ((resolveEdge (buildNodeMap nodes) src (tc.node.getD "unknown")).map
          (fun ab => edgeLine ab.1 ab.2)).toList := by
    intro src acc tc
    cases resolveEdge (buildNodeMap nodes) src (tc.node.getD "unknown") <;> simp
  have h_conn : ∀ (src : String) (conn : List TargetConn) (acc : List String),
      conn.foldl (fun acc tc =>
        match resolveEdge (buildNodeMap nodes) src (tc.node.getD "unknown") with
        | some ab => acc ++ [edgeLine ab.1 ab.2]
        | none => acc) acc
      = acc ++ conn.flatMap (fun tc =>
          ((resolveEdge (buildNodeMap nodes) src (tc.node.getD "unknown")).map
            (fun ab => edgeLine ab.1 ab.2)).toList) :=
    fun src conn acc => foldl_append_of_body _ _ (h_tc src) conn acc
  have h_cl : ∀ (src : String) (cls : List (List TargetConn)) (acc : List String),
      cls.foldl (fun acc conn => conn.foldl (fun acc tc =>
        match resolveEdge (buildNodeMap nodes) src (tc.node.getD "unknown") with
        | some ab => acc ++ [edgeLine ab.1 ab.2]
        | none => acc) acc) acc
      = acc ++ cls.flatMap (fun conn => conn.flatMap (fun tc =>
          ((resolveEdge (buildNodeMap nodes) src (tc.node.getD "unknown")).map
            (fun ab => edgeLine ab.1 ab.2)).toList)) :=
    fun src cls acc =>
      foldl_append_of_body _ _ (fun acc conn => h_conn src conn acc) cls acc
  have h_cd : ∀ (src : String)
      (cd : List (String × List (List TargetConn))) (acc : List String),
      cd.foldl (fun acc cl => cl.2.foldl (fun acc conn =>
        conn.foldl (fun acc tc =>
          match resolveEdge (buildNodeMap nodes) src (tc.node.getD "unknown") with
          | some ab => acc ++ [edgeLine ab.1 ab.2]
          | none => acc) acc) acc) acc
      = acc ++ cd.flatMap (fun cl => cl.2.flatMap (fun conn =>
          conn.flatMap (fun tc =>
            ((resolveEdge (buildNodeMap nodes) src
              (tc.node.getD "unknown")).map
              (fun ab => edgeLine ab.1 ab.2)).toList))) :=
    fun src cd acc =>
      foldl_append_of_body _ _ (fun acc cl => h_cl src cl.2 acc) cd acc
  have h_top : ∀ acc : List String,
      conns.foldl (fun acc sc => sc.2.foldl (fun acc cl =>
        cl.2.foldl (fun acc conn => conn.foldl (fun acc tc =>
          match resolveEdge (buildNodeMap nodes) sc.1
              (tc.node.getD "unknown") with
          | some ab => acc ++ [edgeLine ab.1 ab.2]
          | none => acc) acc) acc) acc) acc
      = acc ++ conns.flatMap (fun sc => sc.2.flatMap (fun cl =>
          cl.2.flatMap (fun conn => conn.flatMap (fun tc =>
            ((resolveEdge (buildNodeMap nodes) sc.1
              (tc.node.getD "unknown")).map
              (fun ab => edgeLine ab.1 ab.2)).toList)))) :=
    fun acc =>
      foldl_append_of_body _ _ (fun acc sc => h_cd sc.1 sc.2 acc) conns acc
  show conns.foldl _ (["graph TD"] ++ nodeLines nodes) = _
  rw [h_top (["graph TD"] ++ nodeLines nodes)]
  simp only [connPairs, filterMap_flatMap_list, List.filterMap_map,
    flatMap_toList_eq_filterMap, List.cons_append, List.nil_append,
    List.append_assoc]
  rfl

/-- C7: the emitted diagram is the header, one labelled line per node
bearing its sanitized/truncated display name, then — for each
`(source, target)` pair of the connections mapping, in iteration order —
an edge line exactly when both endpoints resolve, each endpoint resolved
first by exact match against the recorded display names and, failing
that, by the first substring match (either name containing the other) in
iteration order.  Display names have quote characters stripped, and names
longer than 30 characters are cut to their first 27 characters plus an
ellipsis. -/
theorem C7_diagram_resolution (nodes : List RawNode) (conns : Connections) :
    get_workflow_diagram nodes conns
      = "graph TD" :: (nodeLines nodes
          ++ (connPairs conns).filterMap (spec_edgeLine (buildNodeMap nodes)))
    ∧ (∀ n : RawNode, strLen (sanitizeName (n.name.getD "Unknown")) ≤ 30 →
        cleanNodeName n = sanitizeName (n.name.getD "Unknown"))
    ∧ (∀ n : RawNode, 30 < strLen (sanitizeName (n.name.getD "Unknown")) →
        cleanNodeName n = strTake (sanitizeName (n.name.getD "Unknown")) 27
          ++ "...") := by
  refine ⟨?_, ?_, ?_⟩
  · rw [get_workflow_diagram_eq]
    have hfun : (fun p : String × String =>
        (resolveEdge (buildNodeMap nodes) p.1 p.2).map
          (fun ab => edgeLine ab.1 ab.2))
        = spec_edgeLine (buildNodeMap nodes) :=
      funext (fun p =>
        resolveEdge_spec_of_nodup (buildNodeMap nodes) p.1 p.2
          (buildNodeMap_keys_nodup nodes))
    rw [hfun]
  · intro n h
    simp [cleanNodeName, truncateName, Nat.not_lt.mpr h]
  · intro n h
    simp [cleanNodeName, truncateName, h]

/-- C7, witness: a name of 39 characters is truncated to 27 characters
plus an ellipsis. -/
theorem C7_diagram_resolution_witness :
    cleanNodeName nLongName
      = strTake (sanitizeName (nLongName.name.getD "Unknown")) 27 ++ "..." :=
  (C7_diagram_resolution [] []).2.2 nLongName (by decide)

/-! ### C10 — duplicate display names in the node map -/

theorem getD_append_left_node (l : List RawNode) (x : RawNode) (k : Nat)
    (h : k < l.length) : (l ++ [x]).getD k noNode = l.getD k noNode := by
  simp [List.getD, List.getElem?_append_left h]

theorem getD_append_length_node (l : List RawNode) (x : RawNode) :
    (l ++ [x]).getD l.length noNode = x := by
  simp [List.getD]

theorem buildNodeMap_concat (l : List RawNode) (n : RawNode) :
    buildNodeMap (l ++ [n])
      = dictSet (buildNodeMap l) (cleanNodeName n) (mkNodeId l.length) := by
  simp [buildNodeMap, List.enum_append, List.foldl_append]

theorem lastCleanIdx_concat (l : List RawNode) (n : RawNode) (name : String) :
    lastCleanIdx (l ++ [n]) name
      = if (cleanNodeName n == name) then some l.length
        else lastCleanIdx l name := by
  simp only [lastCleanIdx, List.enum_append, List.reverse_append,
    List.reverse_cons, List.reverse_nil, List.nil_append, List.singleton_append,
    List.find?_cons]
  cases h : (cleanNodeName n == name) <;> simp [h]

theorem dictGet_buildNodeMap (nodes : List RawNode) (name : String) :
    dictGet (buildNodeMap nodes) name
      = (lastCleanIdx nodes name).map mkNodeId := by
  induction nodes using List.reverseRecOn with
  | nil => rfl
  | append_singleton l n ih =>
    rw [buildNodeMap_concat, lastCleanIdx_concat]
    by_cases h : cleanNodeName n = name
    · have hb : (cleanNodeName n == name) = true := by simp [h]
      rw [hb, if_pos rfl, ← h, dictGet_dictSet_self]
      rfl
    · have hb : (cleanNodeName n == name) = false := by simp [h]
      rw [hb]
      simp only [Bool.false_eq_true, if_false]
      rw [dictGet_dictSet_ne _ _ _ _ (Ne.symm h), ih]

theorem lastCleanIdx_of_last (nodes : List RawNode) (j : Nat) (name : String)
    (hj : j < nodes.length)
    (hcj : cleanNodeName (nodes.getD j noNode) = name)
    (hlast : ∀ k, j < k → k < nodes.length →
      cleanNodeName (nodes.getD k noNode) ≠ name) :
    lastCleanIdx nodes name = some j := by
  induction nodes using List.reverseRecOn with
  | nil => simp at hj
  | append_singleton l n ih =>
    rw [lastCleanIdx_concat]
    rcases Nat.lt_or_ge j l.length with hjl | hjl
    · have hn : cleanNodeName n ≠ name := by
        have h := hlast l.length (by omega) (by simp)
        rwa [getD_append_length_node] at h
      have hb : (cleanNodeName n == name) = false := by simp [hn]
      rw [hb]
      simp only [Bool.false_eq_true, if_false]
      apply ih hjl
      · rwa [getD_append_left_node _ _ _ hjl] at hcj
      · intro k hk1 hk2
        have h := hlast k hk1 (by simp; omega)
        rwa [getD_append_left_node _ _ _ hk2] at h
    · have hj' : j = l.length := by
        simp only [List.length_append, List.length_singleton] at hj
        omega
      subst hj'
      have hn : cleanNodeName n = name := by
        rwa [getD_append_length_node] at hcj
      simp [hn]

theorem mem_of_dictGet (m : List (String × String)) (k v : String)
    (h : dictGet m k = some v) : (k, v) ∈ m := by
  induction m with
  | nil => simp [dictGet, List.lookup] at h
  | cons e rest ih =>
    obtain ⟨k0, v0⟩ := e
    by_cases hk : k = k0
    · subst hk
      simp only [dictGet, List.lookup, beq_self_eq_true] at h
      obtain rfl : v0 = v := by simpa using h
      exact List.mem_cons_self _ _
    · have hb : (k == k0) = false := by simp [hk]
      simp only [dictGet, List.lookup, hb] at h
      exact List.mem_cons_of_mem _ (ih h)

theorem dictGet_of_mem_nodup (m : List (String × String)) (kv : String × String)
    (h : kv ∈ m) (hn : (keysOf m).Nodup) : dictGet m kv.1 = some kv.2 := by
  induction m with
  | nil => simp at h
  | cons e rest ih =>
    obtain ⟨k0, v0⟩ := e
    simp only [keysOf, List.map_cons, List.nodup_cons] at hn
    rcases List.mem_cons.mp h with he | hm
    · subst he
      simp [dictGet, List.lookup]
    · by_cases hk : kv.1 = k0
      · exfalso
        apply hn.1
        rw [← hk]
        exact List.mem_map_of_mem Prod.fst hm
      · have hb : (kv.1 == k0) = false := by simp [hk]
        simp only [dictGet, List.lookup, hb]
        exact ih hm hn.2

theorem buildNodeMap_values (nodes : List RawNode) (kv : String × String)
    (h : kv ∈ buildNodeMap nodes) :
    ∃ i, lastCleanIdx nodes kv.1 = some i ∧ kv.2 = mkNodeId i := by
  have hl : dictGet (buildNodeMap nodes) kv.1 = some kv.2 :=
    dictGet_of_mem_nodup _ kv h (buildNodeMap_keys_nodup nodes)
  rw [dictGet_buildNodeMap] at hl
  cases hi : lastCleanIdx nodes kv.1 with
  | none => rw [hi] at hl; simp at hl
  | some i =>
    rw [hi] at hl
    simp only [Option.map] at hl
    exact ⟨i, rfl, (Option.some.inj hl).symm⟩

theorem partialScan_mem (m : List (String × String)) (name v : String)
    (h : partialScan m name = some v) : ∃ k, (k, v) ∈ m := by
  unfold partialScan at h
  cases hf : m.find? (fun kv => strContains kv.1 name || strContains name kv.1) with
  | none => rw [hf] at h; simp at h
  | some kv =>
    rw [hf] at h
    simp only [Option.map] at h
    refine ⟨kv.1, ?_⟩
    have hkv := List.mem_of_find?_eq_some hf
    have hv : kv.2 = v := Option.some.inj h
    have : (kv.1, v) = kv := by
      rw [← hv]
    rw [this]
    exact hkv

theorem resolveEdge_mem_of_nodup (m : List (String × String))
    (hn : (keysOf m).Nodup) (s t a b : String)
    (h : resolveEdge m s t = some (a, b)) :
    (∃ k, (k, a) ∈ m) ∧ (∃ k, (k, b) ∈ m) := by
  unfold resolveEdge at h
  rw [exactScan_eq_dictGet m s t hn] at h
  have hsrc : ∀ x : String,
      (match dictGet m x with
        | some v => some v
        | none => partialScan m x) = some a → ∃ k, (k, a) ∈ m := by
    intro x hx
    cases hg : dictGet m x with
    | some v =>
      rw [hg] at hx
      exact ⟨x, (Option.some.inj hx) ▸ mem_of_dictGet m x v hg⟩
    | none =>
      rw [hg] at hx
      exact partialScan_mem m x a hx
  have htgt : ∀ x : String,
      (match dictGet m x with
        | some v => some v
        | none => partialScan m x) = some b → ∃ k, (k, b) ∈ m := by
    intro x hx
    cases hg : dictGet m x with
    | some v =>
      rw [hg] at hx
      exact ⟨x, (Option.some.inj hx) ▸ mem_of_dictGet m x v hg⟩
    | none =>
      rw [hg] at hx
      exact partialScan_mem m x b hx
  dsimp only at h
  cases hs : (match dictGet m s with
      | some v => some v
      | none => partialScan m s) with
  | none => rw [hs] at h; simp at h
  | some av =>
    cases ht : (match dictGet m t with
        | some v => some v
        | none => partialScan m t) with
    | none => rw [hs, ht] at h; simp at h
    | some bv =>
      rw [hs, ht] at h
      simp only [Option.some.injEq, Prod.mk.injEq] at h
      obtain ⟨rfl, rfl⟩ := h
      exact ⟨hsrc s hs, htgt t ht⟩

/-- C10: when two nodes of one document share a sanitized/truncated
display name, the name-keyed node map records only the synthetic
identifier of the last such node in document order; an edge endpoint
bearing that name resolves (exactly) to that last node's identifier; every
endpoint of every emitted edge is the identifier of a node that is the
last occurrence of its display name, so an earlier same-named node's entry
can never back an edge endpoint; and one labelled node line is still
emitted for every node. -/
theorem C10_duplicate_names_last_wins (nodes : List RawNode) (name : String)
    (i j : Nat) (_hij : i < j) (hj : j < nodes.length)
    (_hci : cleanNodeName (nodes.getD i noNode) = name)
    (hcj : cleanNodeName (nodes.getD j noNode) = name)
    (hlast : ∀ k, j < k → k < nodes.length →
      cleanNodeName (nodes.getD k noNode) ≠ name) :
    dictGet (buildNodeMap nodes) name = some (mkNodeId j)
    ∧ spec_resolveEndpoint (buildNodeMap nodes) name = some (mkNodeId j)
    ∧ (∀ s t a b, resolveEdge (buildNodeMap nodes) s t = some (a, b) →
        (∃ nm k, lastCleanIdx nodes nm = some k ∧ a = mkNodeId k)
        ∧ (∃ nm k, lastCleanIdx nodes nm = some k ∧ b = mkNodeId k))
    ∧ (nodeLines nodes).length = nodes.length := by
  have hidx := lastCleanIdx_of_last nodes j name hj hcj hlast
  have hget : dictGet (buildNodeMap nodes) name = some (mkNodeId j) := by
    rw [dictGet_buildNodeMap, hidx]
    rfl
  refine ⟨hget, ?_, ?_, ?_⟩
  · unfold spec_resolveEndpoint
    rw [hget]
  · intro s t a b h
    obtain ⟨⟨ka, hma⟩, ⟨kb, hmb⟩⟩ :=
      resolveEdge_mem_of_nodup _ (buildNodeMap_keys_nodup nodes) s t a b h
    obtain ⟨ia, hia, ha⟩ := buildNodeMap_values nodes (ka, a) hma
    obtain ⟨ib, hib, hbv⟩ := buildNodeMap_values nodes (kb, b) hmb
    exact ⟨⟨ka, ia, hia, ha⟩, ⟨kb, ib, hib, hbv⟩⟩
  · simp [nodeLines]

/-- C10, witness: with two nodes both displayed as `Step`, the map sends
`Step` to `node2`, the identifier of the second node. -/
theorem C10_duplicate_names_witness :
    dictGet (buildNodeMap [nDupFirst, nDupSecond]) "Step" = some (mkNodeId 1) :=
  (C10_duplicate_names_last_wins [nDupFirst, nDupSecond] "Step" 0 1
    (by decide) (by decide) (by decide) (by decide)
    (fun k hk1 hk2 => absurd hk2
      (by simp only [List.length_cons, List.length_nil]; omega))).1
